import Mathlib

/-!
Verification of the wavy sound-playback library (github.com/bloeys/wavy).

This file embeds the pure/possible-panic fragments of the Go source into
Lean and proves (or refutes) the frozen specification claims about them.

Modelling conventions:
* Go `int64` values are modelled as `Int`; where an overflowing addition is
  performed by the source, the wrap-around is made explicit via `i64wrap`.
* Go run-time panics (out-of-range slice expressions, failed type
  assertions, explicit `panic` calls) are modelled by `Option`/`Except`
  results, `none`/`error` meaning the operation aborts.
* Go `float64` intermediates are modelled as exact rationals `ℚ`; the
  conversions `int64(f)` truncate toward zero, which `ratTrunc` mirrors.
  Every concrete input used in a theorem below keeps those intermediates
  far from integer boundaries, so IEEE-754 rounding could not change the
  truncated values there.
* External collaborators (the oto device player, the go-mp3 / go-audio-wav /
  oggvorbis decoders, the file system) are modelled by the contract the
  specification assigns to them in sections 4.2 and 6: a decoder seek is a
  plain file seek, `Rewind` moves the decoder back to the absolute start of
  the file, and close operations on the player/file produce an arbitrary
  error result that is a parameter of the model.
-/

namespace Wavy

/-- Wrap an unbounded integer to Go `int64` two's-complement range. -/
def i64wrap (x : Int) : Int := (x + 2 ^ 63) % 2 ^ 64 - 2 ^ 63

/-- Truncation toward zero of a rational, the semantics of Go's
`int64(f)` conversion for a `float64` value `f` (here idealised to `ℚ`):
the floor for nonnegative values, the ceiling for negative ones. -/
def ratTrunc (q : ℚ) : Int := if q < 0 then ⌈q⌉ else ⌊q⌋

/-- Go integer division (`/` on `int64`), which truncates toward zero. -/
def goDiv (a b : Int) : Int := Int.tdiv a b

/-! ## Random-Access Buffer: `SoundBuffer` (src/unnamed/part_001)

```go
type SoundBuffer struct { Data []byte; Pos int64 }
```
-/

/-- Model of `SoundBuffer` from src/unnamed/part_001: a byte slice plus read cursor. -/
structure SoundBuffer where
  data : List Nat
  pos : Int
deriving DecidableEq

/-- The two errors `SoundBuffer.Seek` can return. -/
inductive SeekErr where
  | invalidWhence
  | negativeSeekPos
deriving DecidableEq

/-- The `newPos` computed by the `switch whence` in `SoundBuffer.Seek`;
`none` corresponds to the `default:` branch (invalid whence).
Go constants: `io.SeekStart = 0`, `io.SeekCurrent = 1`, `io.SeekEnd = 2`. -/
def sbComputedPos (sb : SoundBuffer) (offset whence : Int) : Option Int :=
  if whence = 0 then some offset
  else if whence = 1 then some (i64wrap (sb.pos + offset))
  else if whence = 2 then some (i64wrap ((sb.data.length : Int) + offset))
  else none

/-- Model of `SoundBuffer.Seek`: computes `newPos` by the `switch`, errors on an
invalid whence or a negative result, otherwise stores and returns it.
The returned pair is (Go return value, state of the receiver afterwards). -/
def sbSeek (sb : SoundBuffer) (offset whence : Int) :
    Except SeekErr Int × SoundBuffer :=
  match sbComputedPos sb offset whence with
  | none => (.error .invalidWhence, sb)
  | some newPos =>
      if newPos < 0 then (.error .negativeSeekPos, sb)
      else (.ok newPos, { sb with pos := newPos })

/-- Model of `SoundBuffer.Read`: `bytesRead = copy(outBuf, sb.Data[sb.Pos:])`.
The Go slice expression `sb.Data[sb.Pos:]` panics when `Pos < 0` or
`Pos > len(Data)` (the default upper bound is `len`, and `low ≤ high` is
required), which the `none` result models.  Otherwise `min` bytes are
copied; zero copied bytes yield `(0, io.EOF)` without advancing the
cursor, and a positive count advances the cursor.  The `Bool` in the
result records whether `io.EOF` was returned. -/
def sbRead (sb : SoundBuffer) (outLen : Nat) :
    Option ((Nat × Bool) × SoundBuffer) :=
  if sb.pos < 0 ∨ (sb.data.length : Int) < sb.pos then none
  else
    let bytesRead := min outLen (sb.data.length - sb.pos.toNat)
    if bytesRead = 0 then some ((0, true), sb)
    else some ((bytesRead, false), { sb with pos := sb.pos + bytesRead })

/-- Model of `SoundBuffer.Copy`: same data, cursor reset to 0. -/
def sbCopy (sb : SoundBuffer) : SoundBuffer := { data := sb.data, pos := 0 }

end Wavy

/-- C1: refuted on the code as written — a `Seek` whose resulting position
is strictly past `len(Data)` succeeds, and the next `Read` then evaluates
the slice expression `sb.Data[sb.Pos:]` with `Pos > len(Data)`, which
panics (`slice bounds out of range`) instead of returning `(0, io.EOF)`:
with `Data = [7]` (one byte), `Seek(2, io.SeekStart)` succeeds returning 2,
and `Read` from that state aborts.  This contradicts the code's own doc
comment on `Seek` ("If the resulting position is >= len(SoundBuffer.Data)
then future Read() calls will return io.EOF"), so it is a code bug. -/
theorem c1_read_panics_after_seek_past_end :
    Wavy.sbSeek ⟨[7], 0⟩ 2 0 = (.ok 2, ⟨[7], 2⟩) ∧
    Wavy.sbRead ⟨[7], 2⟩ 4 = none := by
  constructor <;> rfl

/-- C2: `SoundBuffer.Seek` errors exactly when the whence is invalid
(`ErrInvalidWhence`) or the computed resulting position is negative
(`ErrNegativeSeekPos`); on every error the cursor is unchanged, and on
success the new position is stored in `Pos` and returned. -/
theorem c2_seek_error_behaviour (sb : Wavy.SoundBuffer) (offset whence : Int) :
    ((Wavy.sbSeek sb offset whence).1.isOk = false ↔
      ((whence ≠ 0 ∧ whence ≠ 1 ∧ whence ≠ 2) ∨
        (∃ p, Wavy.sbComputedPos sb offset whence = some p ∧ p < 0))) ∧
    ((Wavy.sbSeek sb offset whence).1 = .error .invalidWhence ↔
      (whence ≠ 0 ∧ whence ≠ 1 ∧ whence ≠ 2)) ∧
    ((Wavy.sbSeek sb offset whence).1 = .error .negativeSeekPos ↔
      (∃ p, Wavy.sbComputedPos sb offset whence = some p ∧ p < 0)) ∧
    ((Wavy.sbSeek sb offset whence).1.isOk = false →
      (Wavy.sbSeek sb offset whence).2 = sb) ∧
    (∀ n, (Wavy.sbSeek sb offset whence).1 = .ok n →
      (Wavy.sbSeek sb offset whence).2.pos = n ∧
        Wavy.sbComputedPos sb offset whence = some n) := by
  have hnone : Wavy.sbComputedPos sb offset whence = none ↔
      (whence ≠ 0 ∧ whence ≠ 1 ∧ whence ≠ 2) := by
    unfold Wavy.sbComputedPos
    split_ifs with h0 h1 h2 <;> simp_all
  rcases hcp : Wavy.sbComputedPos sb offset whence with _ | p
  · have hw : whence ≠ 0 ∧ whence ≠ 1 ∧ whence ≠ 2 := hnone.mp hcp
    refine ⟨?_, ?_, ?_, ?_, ?_⟩ <;>
      simp [Wavy.sbSeek, hcp, hw.1, hw.2.1, hw.2.2, Except.isOk, Except.toBool]
  · have hv : ¬(whence ≠ 0 ∧ whence ≠ 1 ∧ whence ≠ 2) := by
      intro hw
      rw [hnone.mpr hw] at hcp
      exact Option.noConfusion hcp
    by_cases hneg : p < 0
    · refine ⟨?_, ?_, ?_, ?_, ?_⟩ <;>
        simp [Wavy.sbSeek, hcp, hneg, hv, Except.isOk, Except.toBool]
    · refine ⟨?_, ?_, ?_, ?_, ?_⟩ <;>
        simp [Wavy.sbSeek, hcp, hneg, hv, Except.isOk, Except.toBool]

/-- C2 witness: a concrete successful seek (`Data` of length 3, offset 2,
whence `io.SeekStart`) instantiating the theorem. -/
theorem c2_seek_error_behaviour_witness :
    ((Wavy.sbSeek ⟨[1, 2, 3], 0⟩ 2 0).1.isOk = false ↔
      (((0 : Int) ≠ 0 ∧ (0 : Int) ≠ 1 ∧ (0 : Int) ≠ 2) ∨
        (∃ p, Wavy.sbComputedPos ⟨[1, 2, 3], 0⟩ 2 0 = some p ∧ p < 0))) ∧
    ((Wavy.sbSeek ⟨[1, 2, 3], 0⟩ 2 0).1 = .error .invalidWhence ↔
      ((0 : Int) ≠ 0 ∧ (0 : Int) ≠ 1 ∧ (0 : Int) ≠ 2)) ∧
    ((Wavy.sbSeek ⟨[1, 2, 3], 0⟩ 2 0).1 = .error .negativeSeekPos ↔
      (∃ p, Wavy.sbComputedPos ⟨[1, 2, 3], 0⟩ 2 0 = some p ∧ p < 0)) ∧
    ((Wavy.sbSeek ⟨[1, 2, 3], 0⟩ 2 0).1.isOk = false →
      (Wavy.sbSeek ⟨[1, 2, 3], 0⟩ 2 0).2 = ⟨[1, 2, 3], 0⟩) ∧
    (∀ n, (Wavy.sbSeek ⟨[1, 2, 3], 0⟩ 2 0).1 = .ok n →
      (Wavy.sbSeek ⟨[1, 2, 3], 0⟩ 2 0).2.pos = n ∧
        Wavy.sbComputedPos ⟨[1, 2, 3], 0⟩ 2 0 = some n) :=
  c2_seek_error_behaviour ⟨[1, 2, 3], 0⟩ 2 0

namespace Wavy

/-! ## Seek-Emulation Streams (src/wav_streamer.go, src/ogg_streamer.go)

The wav/ogg decoders are external components (go-audio/wav, oggvorbis).
They are modelled by the contract spec sections 4.2 and 6 give them:
`(*wav.Decoder).Seek` "will only seek the underlying file" (comment in
src/wav_streamer.go line 39), so it is a plain file seek that fails on a
negative or invalid target, and `Rewind` moves the decoder back to the
absolute start of the file (offset 0).  The oggvorbis reader keeps a
sample position inside `[0, Length]`; `SetPosition` fails outside that
range and errors are surfaced unchanged.
-/

/-- State of the external wav decoder: the position and size of the
underlying file it reads from. -/
structure WavDecoder where
  filePos : Int
  fileSize : Int
deriving DecidableEq

/-- The target file offset of `(*wav.Decoder).Seek(offset, whence)`:
standard `io.Seeker` arithmetic, `none` on an invalid whence. -/
def decTarget (d : WavDecoder) (offset whence : Int) : Option Int :=
  if whence = 0 then some offset
  else if whence = 1 then some (d.filePos + offset)
  else if whence = 2 then some (d.fileSize + offset)
  else none

/-- Model of `(*wav.Decoder).Seek`: a plain seek of the underlying file, failing on
an invalid whence or a negative resulting offset. -/
def decSeek (d : WavDecoder) (offset whence : Int) :
    Except Unit (Int × WavDecoder) :=
  match decTarget d offset whence with
  | none => .error ()
  | some t => if t < 0 then .error () else .ok (t, { d with filePos := t })

/-- Model of `(*wav.Decoder).Rewind`: back to the absolute start of the file. -/
def decRewind (d : WavDecoder) : WavDecoder := { d with filePos := 0 }

/-- Model of `WavStreamer` from src/wav_streamer.go: decoder handle, logical byte
position `Pos` and the first byte of PCM data `PCMStart`. -/
structure WavStreamer where
  dec : WavDecoder
  pos : Int
  pcmStart : Int
deriving DecidableEq

/-- Model of `WavStreamer.Read`: the decoder produces `bytesRead ≥ 0` bytes from
its current file position and `Pos` advances by the same amount. -/
def wavRead (ws : WavStreamer) (bytesRead : Int) : WavStreamer :=
  { ws with
    dec := { ws.dec with filePos := ws.dec.filePos + bytesRead }
    pos := ws.pos + bytesRead }

/-- Model of `WavStreamer.Seek` (src/wav_streamer.go lines 34-67): seek the
underlying file; if the result is before `Pos`, rewind the decoder and
either clamp to `PCMStart` or re-issue the seek; store the result in
`Pos` and return it. -/
def wavSeek (ws : WavStreamer) (offset whence : Int) :
    Except Unit (Int × WavStreamer) :=
  match decSeek ws.dec offset whence with
  | .error _ => .error ()
  | .ok (n, d1) =>
      if n < ws.pos then
        let d2 := decRewind d1
        if n < ws.pcmStart then
          .ok (ws.pcmStart, { ws with dec := d2, pos := ws.pcmStart })
        else
          match decSeek d2 offset whence with
          | .error _ => .error ()
          | .ok (n2, d3) => .ok (n2, { ws with dec := d3, pos := n2 })
      else
        .ok (n, { ws with dec := d1, pos := n })

/-- Model of `NewWavStreamer`: after `FwdToPCM` the file sits at the first PCM
byte `currPos`, which initialises both `Pos` and `PCMStart`. -/
def mkWavStreamer (currPos fileSize : Int) : WavStreamer :=
  { dec := { filePos := currPos, fileSize := fileSize }
    pos := currPos
    pcmStart := currPos }

/-- The external oggvorbis reader: a sample position within
`[0, length]` (both in samples, not bytes). -/
structure OggDecoder where
  position : Int
  length : Int
deriving DecidableEq

/-- Model of `(*oggvorbis.Reader).SetPosition`: moves the sample position, failing
outside `[0, Length]`. -/
def oggSetPosition (d : OggDecoder) (p : Int) : Except Unit OggDecoder :=
  if p < 0 ∨ d.length < p then .error () else .ok { d with position := p }

/-- Model of `OggStreamer.Seek` (src/ogg_streamer.go lines 35-62): divides the byte
offset by `BytesPerSample` (Go truncating division), dispatches on whence
(a whence outside 0/1/2 matches no case and does nothing), and returns
`Position() * BytesPerSample`. -/
def oggSeek (bytesPerSample : Int) (d : OggDecoder) (offset whence : Int) :
    Except Unit (Int × OggDecoder) :=
  let offsetSamples := goDiv offset bytesPerSample
  let setRes : Except Unit OggDecoder :=
    if whence = 0 then oggSetPosition d offsetSamples
    else if whence = 1 then oggSetPosition d (d.position + offsetSamples)
    else if whence = 2 then oggSetPosition d (d.length + offsetSamples)
    else .ok d
  match setRes with
  | .error _ => .error ()
  | .ok d2 => .ok (d2.position * bytesPerSample, d2)

/-- Inversion for a successful external-decoder file seek. -/
theorem decSeek_ok_inv (d : WavDecoder) (offset whence n : Int)
    (d2 : WavDecoder) (h : decSeek d offset whence = .ok (n, d2)) :
    decTarget d offset whence = some n ∧ 0 ≤ n ∧
      d2 = { d with filePos := n } := by
  unfold decSeek at h
  rcases ht : decTarget d offset whence with _ | t <;> rw [ht] at h <;>
    dsimp only at h
  · exact absurd h (by simp)
  · by_cases hneg : t < 0
    · rw [if_pos hneg] at h
      exact absurd h (by simp)
    · rw [if_neg hneg] at h
      obtain ⟨h1, h2⟩ := Prod.mk.injEq .. ▸ Except.ok.inj h
      subst h1
      exact ⟨rfl, le_of_not_lt hneg, h2.symm⟩

end Wavy

namespace Wavy

/-- The computed target byte position of a `WavStreamer` seek request:
`io.Seeker` arithmetic over byte positions (for `io.SeekEnd` the wav
decoder seeks relative to the end of the underlying file). -/
def wavTarget (ws : WavStreamer) (offset whence : Int) : Int :=
  if whence = 0 then offset
  else if whence = 1 then ws.pos + offset
  else ws.dec.fileSize + offset

/-- Inversion for a successful `WavStreamer.Seek`: the result is stored in
`Pos`, `PCMStart` is untouched, and the returned value comes from one of
the three source branches (forward, clamped backward, re-issued backward).
-/
theorem wavSeek_ok_inv (ws : WavStreamer) (offset whence n : Int)
    (ws2 : WavStreamer) (h : wavSeek ws offset whence = .ok (n, ws2)) :
    ws2.pcmStart = ws.pcmStart ∧ ws2.pos = n ∧
      (∃ n1, decSeek ws.dec offset whence =
          .ok (n1, WavDecoder.mk n1 ws.dec.fileSize) ∧
        ((¬n1 < ws.pos ∧ n = n1) ∨
          (n1 < ws.pos ∧ n1 < ws.pcmStart ∧ n = ws.pcmStart) ∨
          (n1 < ws.pos ∧ ¬n1 < ws.pcmStart ∧
            decSeek (decRewind (WavDecoder.mk n1 ws.dec.fileSize))
                offset whence =
              .ok (n, ws2.dec)))) := by
  unfold wavSeek at h
  rcases hds : decSeek ws.dec offset whence with _ | p <;> rw [hds] at h <;>
    dsimp only at h
  · exact absurd h (by simp)
  · obtain ⟨n1, d1⟩ := p
    obtain ⟨ht1, hn1, hd1⟩ := decSeek_ok_inv _ _ _ _ _ hds
    subst hd1
    by_cases hback : n1 < ws.pos
    · rw [if_pos hback] at h
      by_cases hclamp : n1 < ws.pcmStart
      · rw [if_pos hclamp] at h
        dsimp only at h
        obtain ⟨hn, hws2⟩ := Prod.mk.injEq .. ▸ Except.ok.inj h
        subst hn
        refine ⟨by rw [← hws2], by rw [← hws2], n1, rfl, Or.inr (Or.inl ⟨hback, hclamp, rfl⟩)⟩
      · rw [if_neg hclamp] at h
        dsimp only at h
        rcases hds2 : decSeek (decRewind { ws.dec with filePos := n1 })
            offset whence with _ | p2 <;> rw [hds2] at h <;> dsimp only at h
        · exact absurd h (by simp)
        · obtain ⟨n2, d3⟩ := p2
          obtain ⟨hn, hws2⟩ := Prod.mk.injEq .. ▸ Except.ok.inj h
          subst hn
          refine ⟨by rw [← hws2], by rw [← hws2], n1, rfl,
            Or.inr (Or.inr ⟨hback, hclamp, ?_⟩)⟩
          rw [← hws2]
          exact hds2
    · rw [if_neg hback] at h
      obtain ⟨hn, hws2⟩ := Prod.mk.injEq .. ▸ Except.ok.inj h
      subst hn
      exact ⟨by rw [← hws2], by rw [← hws2], n1, rfl, Or.inl ⟨hback, rfl⟩⟩

end Wavy

/-- C3 counterexample: the invariant `Pos ≥ PCMStart` is violated by a
reachable sequence of successful operations.  Construct a streamer whose
PCM data starts at byte 44 of a 1000-byte file; a backward seek to 10 is
clamped to 44 but leaves the rewound decoder at file offset 0 (the source
clamps `n` without seeking the decoder to `PCMStart`); reading 40 bytes
then puts the file at 40 while `Pos = 84`; a subsequent
`Seek(10, io.SeekCurrent)` succeeds and stores `Pos = 10 < PCMStart = 44`.
-/
theorem c3_pos_below_pcmstart_counterexample :
    Wavy.wavSeek (Wavy.mkWavStreamer 44 1000) 10 0 =
      .ok (44, ⟨⟨0, 1000⟩, 44, 44⟩) ∧
    Wavy.wavRead ⟨⟨0, 1000⟩, 44, 44⟩ 40 = ⟨⟨40, 1000⟩, 84, 44⟩ ∧
    Wavy.wavSeek ⟨⟨40, 1000⟩, 84, 44⟩ 10 1 =
      .ok (10, ⟨⟨10, 1000⟩, 10, 44⟩) ∧
    ((10 : Int) < 44 ∧ (⟨⟨10, 1000⟩, 10, 44⟩ : Wavy.WavStreamer).pos <
      (⟨⟨10, 1000⟩, 10, 44⟩ : Wavy.WavStreamer).pcmStart) := by
  refine ⟨rfl, rfl, rfl, by decide, by decide⟩

/-- C3 amended: `Pos ≥ PCMStart` holds after construction, after every
`Read`, and after every successful `Seek` that either uses whence
`io.SeekStart` or `io.SeekEnd`, or does not move backward (returned
position at least the previous `Pos`); `PCMStart` itself never changes.
A successful backward `io.SeekCurrent` seek can store a position below
`PCMStart` (see the counterexample), because the decoder's file position
— from which `io.SeekCurrent` is computed — no longer matches `Pos`
after the rewind performed by a clamped backward seek. -/
theorem c3_pos_ge_pcmstart_amended :
    (∀ currPos fileSize : Int,
      (Wavy.mkWavStreamer currPos fileSize).pcmStart ≤
        (Wavy.mkWavStreamer currPos fileSize).pos) ∧
    (∀ (ws : Wavy.WavStreamer) (k : Int), 0 ≤ k →
      ws.pcmStart ≤ ws.pos →
      (Wavy.wavRead ws k).pcmStart ≤ (Wavy.wavRead ws k).pos ∧
        (Wavy.wavRead ws k).pcmStart = ws.pcmStart) ∧
    (∀ (ws : Wavy.WavStreamer) (offset whence n : Int)
        (ws2 : Wavy.WavStreamer),
      ws.pcmStart ≤ ws.pos →
      Wavy.wavSeek ws offset whence = .ok (n, ws2) →
      (whence = 0 ∨ whence = 2 ∨ ws.pos ≤ n) →
      ws2.pcmStart ≤ ws2.pos ∧ ws2.pcmStart = ws.pcmStart) := by
  refine ⟨fun currPos fileSize => le_refl _, ?_, ?_⟩
  · intro ws k hk hinv
    unfold Wavy.wavRead
    exact ⟨le_trans hinv (by simpa using hk), rfl⟩
  · intro ws offset whence n ws2 hinv hseek hcond
    obtain ⟨hpcm, hpos, n1, hds, hcases⟩ := Wavy.wavSeek_ok_inv _ _ _ _ _ hseek
    refine ⟨?_, hpcm⟩
    rw [hpcm, hpos]
    rcases hcases with ⟨hfwd, rfl⟩ | ⟨hback, hclamp, rfl⟩ |
        ⟨hback, hclamp, hsecond⟩
    · exact le_trans hinv (le_of_not_lt hfwd)
    · exact le_refl _
    · rcases hcond with h0 | h2 | hfw
      · obtain ⟨ht1, _, _⟩ := Wavy.decSeek_ok_inv _ _ _ _ _ hds
        obtain ⟨ht2, _, _⟩ := Wavy.decSeek_ok_inv _ _ _ _ _ hsecond
        subst h0
        simp [Wavy.decTarget, Wavy.decRewind] at ht1 ht2
        omega
      · obtain ⟨ht1, _, _⟩ := Wavy.decSeek_ok_inv _ _ _ _ _ hds
        obtain ⟨ht2, _, _⟩ := Wavy.decSeek_ok_inv _ _ _ _ _ hsecond
        subst h2
        simp [Wavy.decTarget, Wavy.decRewind] at ht1 ht2
        omega
      · exact le_trans hinv hfw

/-- C3 witness: the seek clause of the amended theorem instantiated at a
concrete clamped backward `io.SeekStart` seek (PCM start 44, file size
1000, request `Seek(10, io.SeekStart)`), whose hypotheses hold and whose
conclusion evaluates to `44 ≤ 44 ∧ 44 = 44`. -/
theorem c3_pos_ge_pcmstart_amended_witness :
    (Wavy.mkWavStreamer 44 1000).pcmStart ≤ (Wavy.mkWavStreamer 44 1000).pos ∧
    Wavy.wavSeek (Wavy.mkWavStreamer 44 1000) 10 0 =
      .ok (44, ⟨⟨0, 1000⟩, 44, 44⟩) ∧
    ((⟨⟨0, 1000⟩, 44, 44⟩ : Wavy.WavStreamer).pcmStart ≤
        (⟨⟨0, 1000⟩, 44, 44⟩ : Wavy.WavStreamer).pos ∧
      (⟨⟨0, 1000⟩, 44, 44⟩ : Wavy.WavStreamer).pcmStart =
        (Wavy.mkWavStreamer 44 1000).pcmStart) :=
  ⟨le_refl _, rfl,
    c3_pos_ge_pcmstart_amended.2.2 (Wavy.mkWavStreamer 44 1000) 10 0 44
      ⟨⟨0, 1000⟩, 44, 44⟩ (le_refl _) rfl (Or.inl rfl)⟩

namespace Wavy

/-- Inversion for a successful `oggvorbis` `SetPosition`. -/
theorem oggSetPosition_ok_inv (d : OggDecoder) (p : Int) (d2 : OggDecoder)
    (h : oggSetPosition d p = .ok d2) : d2 = ⟨p, d.length⟩ := by
  unfold oggSetPosition at h
  by_cases hc : p < 0 ∨ d.length < p
  · rw [if_pos hc] at h
    exact absurd h (by simp)
  · rw [if_neg hc] at h
    exact (Except.ok.inj h).symm

end Wavy

/-- C4 counterexample: with `BytesPerSample = 4`, a successful
`OggStreamer.Seek(10, io.SeekStart)` from sample position 0 (ogg length
100 samples) returns 8, which is neither the computed target byte
position 10 nor the ogg data-start floor 0: the source divides the byte
offset by `BytesPerSample` with truncating integer division before
handing it to the decoder and returns `Position() * BytesPerSample`. -/
theorem c4_returned_not_target_counterexample :
    Wavy.oggSeek 4 ⟨0, 100⟩ 10 0 = .ok (8, ⟨2, 100⟩) ∧
    (8 : Int) ≠ 10 ∧ (8 : Int) ≠ 0 := by
  refine ⟨rfl, by decide, by decide⟩

/-- C4 amended: after every successful seek the stream's logical position
equals the returned value, but the returned value is the byte target only
up to granularity/clamping: for `OggStreamer` it is the new sample
position times `BytesPerSample` (for `io.SeekStart` the byte offset
truncated to a whole number of samples, not the byte target itself), and
for `WavStreamer` seeks with whence `io.SeekStart` or `io.SeekEnd` it is
the computed target byte position or the `PCMStart` floor when clamped
(backward `io.SeekCurrent` seeks are excluded, see C3). -/
theorem c4_returned_position_amended :
    (∀ (bps : Int) (d : Wavy.OggDecoder) (offset whence n : Int)
        (d2 : Wavy.OggDecoder),
      Wavy.oggSeek bps d offset whence = .ok (n, d2) →
      n = d2.position * bps ∧ d2.length = d.length ∧
        (whence = 0 → d2.position = Wavy.goDiv offset bps)) ∧
    (∀ (ws : Wavy.WavStreamer) (offset whence n : Int)
        (ws2 : Wavy.WavStreamer),
      (whence = 0 ∨ whence = 2) →
      Wavy.wavSeek ws offset whence = .ok (n, ws2) →
      ws2.pos = n ∧
        (n = Wavy.wavTarget ws offset whence ∨ n = ws.pcmStart)) := by
  constructor
  · intro bps d offset whence n d2 h
    unfold Wavy.oggSeek at h
    dsimp only at h
    by_cases h0 : whence = 0
    · subst h0
      rw [if_pos rfl] at h
      rcases hset : Wavy.oggSetPosition d (Wavy.goDiv offset bps) with _ | d3 <;>
        rw [hset] at h <;> dsimp only at h
      · exact absurd h (by simp)
      · obtain ⟨hn, hd⟩ := Prod.mk.injEq .. ▸ Except.ok.inj h
        subst hd
        have hd3 := Wavy.oggSetPosition_ok_inv _ _ _ hset
        subst hd3
        exact ⟨hn.symm, rfl, fun _ => rfl⟩
    · rw [if_neg h0] at h
      by_cases h1 : whence = 1
      · subst h1
        rw [if_pos rfl] at h
        rcases hset : Wavy.oggSetPosition d (d.position + Wavy.goDiv offset bps)
            with _ | d3 <;> rw [hset] at h <;> dsimp only at h
        · exact absurd h (by simp)
        · obtain ⟨hn, hd⟩ := Prod.mk.injEq .. ▸ Except.ok.inj h
          subst hd
          have hd3 := Wavy.oggSetPosition_ok_inv _ _ _ hset
          subst hd3
          exact ⟨hn.symm, rfl, fun hc => absurd hc (by decide)⟩
      · rw [if_neg h1] at h
        by_cases h2 : whence = 2
        · subst h2
          rw [if_pos rfl] at h
          rcases hset : Wavy.oggSetPosition d (d.length + Wavy.goDiv offset bps)
              with _ | d3 <;> rw [hset] at h <;> dsimp only at h
          · exact absurd h (by simp)
          · obtain ⟨hn, hd⟩ := Prod.mk.injEq .. ▸ Except.ok.inj h
            subst hd
            have hd3 := Wavy.oggSetPosition_ok_inv _ _ _ hset
            subst hd3
            exact ⟨hn.symm, rfl, fun hc => absurd hc (by decide)⟩
        · rw [if_neg h2] at h
          dsimp only at h
          obtain ⟨hn, hd⟩ := Prod.mk.injEq .. ▸ Except.ok.inj h
          subst hd
          exact ⟨hn.symm, rfl, fun hc => absurd hc h0⟩
  · intro ws offset whence n ws2 hw hseek
    obtain ⟨hpcm, hpos, n1, hds, hcases⟩ := Wavy.wavSeek_ok_inv _ _ _ _ _ hseek
    refine ⟨hpos, ?_⟩
    rcases hcases with ⟨hfwd, rfl⟩ | ⟨hback, hclamp, rfl⟩ |
        ⟨hback, hclamp, hsecond⟩
    · obtain ⟨ht1, _, _⟩ := Wavy.decSeek_ok_inv _ _ _ _ _ hds
      rcases hw with h0 | h2
      · subst h0
        simp [Wavy.decTarget, Wavy.wavTarget] at ht1 ⊢
        omega
      · subst h2
        simp [Wavy.decTarget, Wavy.wavTarget] at ht1 ⊢
        omega
    · exact Or.inr rfl
    · obtain ⟨ht2, _, _⟩ := Wavy.decSeek_ok_inv _ _ _ _ _ hsecond
      rcases hw with h0 | h2
      · subst h0
        simp [Wavy.decTarget, Wavy.decRewind, Wavy.wavTarget] at ht2 ⊢
        omega
      · subst h2
        simp [Wavy.decTarget, Wavy.decRewind, Wavy.wavTarget] at ht2 ⊢
        omega

/-- C4 witness: the ogg clause instantiated at `BytesPerSample = 4`,
sample length 100, `Seek(12, io.SeekStart)`: the seek succeeds returning
12 = 3 × 4 with the decoder at sample 3 = 12 ÷ 4. -/
theorem c4_returned_position_amended_witness :
    Wavy.oggSeek 4 ⟨0, 100⟩ 12 0 = .ok (12, ⟨3, 100⟩) ∧
    ((12 : Int) = (⟨3, 100⟩ : Wavy.OggDecoder).position * 4 ∧
      (⟨3, 100⟩ : Wavy.OggDecoder).length = (⟨0, 100⟩ : Wavy.OggDecoder).length ∧
      ((0 : Int) = 0 → (⟨3, 100⟩ : Wavy.OggDecoder).position = Wavy.goDiv 12 4)) :=
  ⟨rfl, c4_returned_position_amended.1 4 ⟨0, 100⟩ 12 0 12 ⟨3, 100⟩ rfl⟩

namespace Wavy

/-! ## File-type detection and load entry points (src/wavy.go)

`GetSoundFileType` switches on `path.Ext(fpath)`; `NewSoundStreaming` and
`NewSoundMem` do not call it — they check `strings.HasSuffix(fpath,
".mp3")` directly and return `ErrunknownSoundType` otherwise.  Only the
pure type-detection stage is embedded; the subsequent file I/O and
decoding are external.
-/

/-- The sound types of src/wavy.go lines 17-22 (this snapshot only has
`Unknown` and `MP3`) together with the `WAV`/`OGG` constants of
src/sound_enums.go, so that the claim's expected values are expressible. -/
inductive SoundType where
  | unknown
  | mp3
  | wav
  | ogg
deriving DecidableEq

/-- Scan used by `goPathExt`: walks the characters of the final path
element from the end; the extension starts at the final dot, and a slash
ends the final element ("" when it holds no dot).  The accumulator holds
the characters already passed, in original order. -/
def pathExtAux (acc : List Char) : List Char → List Char
  | [] => []
  | c :: rest =>
      if c = '/' then []
      else if c = '.' then c :: acc
      else pathExtAux (c :: acc) rest

/-- Go's `path.Ext`: "the suffix beginning at the final dot in the final
slash-separated element of path; it is empty if there is no dot". The
returned extension includes the dot. -/
def goPathExt (fpath : String) : String :=
  String.mk (pathExtAux [] fpath.data.reverse)

/-- Model of `GetSoundFileType` (src/wavy.go lines 719-728): switches on
`path.Ext(fpath)` with the single case `"mp3"` (no leading dot). -/
def GetSoundFileType (fpath : String) : SoundType :=
  if goPathExt fpath = "mp3" then .mp3 else .unknown

/-- Model of `strings.HasSuffix`. -/
def goHasSuffix (s sfx : String) : Bool := sfx.data.isSuffixOf s.data

/-- The file-type checking stage shared by `NewSoundStreaming`
(src/wavy.go lines 629-645) and `NewSoundMem` (lines 672-687): the sound
type is `MP3` when the path ends in `".mp3"`, otherwise it stays
`Unknown` and the function returns `ErrunknownSoundType`; the error is
modelled as `Except.error ()`. -/
def newSoundTypeCheck (fpath : String) : Except Unit SoundType :=
  let soundType := if goHasSuffix fpath ".mp3" then SoundType.mp3
    else SoundType.unknown
  if soundType = .unknown then .error () else .ok soundType

/-- Shape lemma: `pathExtAux` never yields a nonempty list that does not start with a
dot. -/
theorem pathExtAux_shape (l acc : List Char) :
    pathExtAux acc l = [] ∨ ∃ t, pathExtAux acc l = '.' :: t := by
  induction l generalizing acc with
  | nil => exact Or.inl rfl
  | cons c rest ih =>
      unfold pathExtAux
      by_cases hs : c = '/'
      · rw [if_pos hs]
        exact Or.inl rfl
      · rw [if_neg hs]
        by_cases hd : c = '.'
        · rw [if_pos hd, hd]
          exact Or.inr ⟨acc, rfl⟩
        · rw [if_neg hd]
          exact ih (c :: acc)

end Wavy

/-- C5 counterexample: `GetSoundFileType "a.mp3"` is `Unknown`, not
`MP3` — `path.Ext` returns the extension with its leading dot (".mp3"),
which never matches the switch case `"mp3"` — while `NewSoundStreaming`
and `NewSoundMem` nevertheless accept the same path (their own
`strings.HasSuffix(fpath, ".mp3")` check passes), so the load entry
points do not fail "exactly when the detected type is Unknown". -/
theorem c5_extension_detection_counterexample :
    Wavy.GetSoundFileType "a.mp3" = .unknown ∧
    Wavy.GetSoundFileType "a.mp3" ≠ .mp3 ∧
    Wavy.GetSoundFileType "b.wav" = .unknown ∧
    Wavy.newSoundTypeCheck "a.mp3" = .ok .mp3 := by
  refine ⟨rfl, by decide, rfl, rfl⟩

/-- C5 amended: `GetSoundFileType` returns `Unknown` for every path (its
only case compares the dot-carrying `path.Ext` result against `"mp3"`,
and it has no `.wav`/`.wave`/`.ogg` cases at all), and both load entry
points fail with the unknown-sound-type error exactly when the path does
not end in `".mp3"`; they do not consult `GetSoundFileType`. -/
theorem c5_detection_always_unknown_amended (fpath : String) :
    Wavy.GetSoundFileType fpath = .unknown ∧
    (Wavy.newSoundTypeCheck fpath = .error () ↔
      Wavy.goHasSuffix fpath ".mp3" = false) ∧
    (Wavy.goHasSuffix fpath ".mp3" = true →
      Wavy.newSoundTypeCheck fpath = .ok .mp3) := by
  refine ⟨?_, ?_, ?_⟩
  · unfold Wavy.GetSoundFileType Wavy.goPathExt
    rcases Wavy.pathExtAux_shape fpath.data.reverse [] with he | ⟨t, he⟩ <;>
      rw [he] <;> simp [String.ext_iff]
  · unfold Wavy.newSoundTypeCheck
    cases hs : Wavy.goHasSuffix fpath ".mp3" <;> simp
  · intro hs
    unfold Wavy.newSoundTypeCheck
    rw [hs]
    simp

/-- C5 witness: the amended theorem instantiated at the path
`"song.wav"`, for which detection yields `Unknown` and the loaders fail.
-/
theorem c5_detection_always_unknown_amended_witness :
    Wavy.GetSoundFileType "song.wav" = .unknown ∧
    (Wavy.newSoundTypeCheck "song.wav" = .error () ↔
      Wavy.goHasSuffix "song.wav" ".mp3" = false) ∧
    (Wavy.goHasSuffix "song.wav" ".mp3" = true →
      Wavy.newSoundTypeCheck "song.wav" = .ok .mp3) :=
  c5_detection_always_unknown_amended "song.wav"

namespace Wavy

/-! ## Time/Byte arithmetic (src/wavy.go lines 763-773)

`PlayTimeFromByteCount` computes `float64(byteCount) / float64(BytesPerSecond)
* 1000` and truncates it into a whole number of milliseconds
(`time.Duration(lenInMs) * time.Millisecond`); `ByteCountFromPlayTime`
computes `t.Milliseconds() * BytesPerSecond / 1000` with Go integer
division.  Durations are in nanoseconds; `BytesPerSecond` is the global
set by `Init` (`channelCount × bitDepth × sampleRate`) and is passed
explicitly here.
-/

/-- Model of `time.Duration.Milliseconds()`: the nanosecond count divided by 10^6
with Go truncating division. -/
def durationMilliseconds (d : Int) : Int := goDiv d 1000000

/-- Model of `PlayTimeFromByteCount` (src/wavy.go lines 764-768), float64
arithmetic idealised to `ℚ`; result in nanoseconds. -/
def PlayTimeFromByteCount (bytesPerSecond byteCount : Int) : Int :=
  ratTrunc ((byteCount : ℚ) / (bytesPerSecond : ℚ) * 1000) * 1000000

/-- Model of `ByteCountFromPlayTime` (src/wavy.go lines 771-773). -/
def ByteCountFromPlayTime (bytesPerSecond t : Int) : Int :=
  goDiv (durationMilliseconds t * bytesPerSecond) 1000

/-- Value of `BytesPerSecond` as `Init` computes it (src/wavy.go lines 347-348). -/
def initBytesPerSecond (sampleRate chanCount bitDepth : Int) : Int :=
  chanCount * bitDepth * sampleRate

end Wavy

/-- C6 counterexample: with `BytesPerSecond = 176400` (44100 Hz × 2
channels × 2 bytes, the initialisation used by the repository's tests)
and `t = 1ms` — inside `[0, totalTime]` for any sound of at least one
millisecond — the inner conversion gives 176 bytes, but
`PlayTimeFromByteCount(176)` truncates `176000/176400 ≈ 0.998` ms to a
zero duration, so the round trip returns 0 ≠ 176. -/
theorem c6_roundtrip_counterexample :
    Wavy.ByteCountFromPlayTime 176400 1000000 = 176 ∧
    Wavy.PlayTimeFromByteCount 176400 176 = 0 ∧
    Wavy.ByteCountFromPlayTime 176400
      (Wavy.PlayTimeFromByteCount 176400
        (Wavy.ByteCountFromPlayTime 176400 1000000)) = 0 ∧
    (0 : Int) ≠ 176 := by
  have h1 : Wavy.ByteCountFromPlayTime 176400 1000000 = 176 := by
    unfold Wavy.ByteCountFromPlayTime Wavy.durationMilliseconds Wavy.goDiv
    decide
  have hq : ((176 : Int) : ℚ) / ((176400 : Int) : ℚ) * 1000 = 440 / 441 := by
    norm_num
  have h2 : Wavy.PlayTimeFromByteCount 176400 176 = 0 := by
    unfold Wavy.PlayTimeFromByteCount Wavy.ratTrunc
    rw [hq]
    rw [if_neg (by norm_num)]
    norm_num
  refine ⟨h1, h2, ?_, by decide⟩
  rw [h1, h2]
  unfold Wavy.ByteCountFromPlayTime Wavy.durationMilliseconds Wavy.goDiv
  decide

/-- C6 amended: the arithmetic layer is only round-trip *non-increasing*,
not round-trip stable: for the initialised `BytesPerSecond > 0` and any
duration `t ≥ 0`, `byteCountFromPlayTime(playTimeFromByteCount(b)) ≤ b`
where `b = byteCountFromPlayTime(t) ≥ 0`; equality fails in general
because `playTimeFromByteCount` truncates to whole milliseconds, which
`byteCountFromPlayTime` cannot undo (see the counterexample at `t = 1ms`,
`BytesPerSecond = 176400`). -/
theorem c6_roundtrip_amended (bps t : Int) (hbps : 0 < bps) (ht : 0 ≤ t) :
    Wavy.ByteCountFromPlayTime bps
        (Wavy.PlayTimeFromByteCount bps (Wavy.ByteCountFromPlayTime bps t)) ≤
      Wavy.ByteCountFromPlayTime bps t ∧
    0 ≤ Wavy.ByteCountFromPlayTime bps t := by
  have hbps' : (0 : ℚ) < (bps : ℚ) := by exact_mod_cast hbps
  have hms : 0 ≤ Wavy.durationMilliseconds t := by
    unfold Wavy.durationMilliseconds Wavy.goDiv
    rw [Int.tdiv_eq_ediv ht (by norm_num)]
    exact Int.ediv_nonneg ht (by norm_num)
  have hb : 0 ≤ Wavy.ByteCountFromPlayTime bps t := by
    unfold Wavy.ByteCountFromPlayTime Wavy.goDiv
    have : 0 ≤ Wavy.durationMilliseconds t * bps :=
      mul_nonneg hms (le_of_lt hbps)
    rw [Int.tdiv_eq_ediv this (by norm_num)]
    exact Int.ediv_nonneg this (by norm_num)
  refine ⟨?_, hb⟩
  set b := Wavy.ByteCountFromPlayTime bps t with hbdef
  have hq0 : (0 : ℚ) ≤ (b : ℚ) / (bps : ℚ) * 1000 := by
    have : (0 : ℚ) ≤ (b : ℚ) := by exact_mod_cast hb
    positivity
  have htr : Wavy.ratTrunc ((b : ℚ) / (bps : ℚ) * 1000) =
      ⌊(b : ℚ) / (bps : ℚ) * 1000⌋ := by
    unfold Wavy.ratTrunc
    rw [if_neg (not_lt.mpr hq0)]
  set m := ⌊(b : ℚ) / (bps : ℚ) * 1000⌋ with hmdef
  have hm0 : 0 ≤ m := Int.floor_nonneg.mpr hq0
  have hple : Wavy.PlayTimeFromByteCount bps b = m * 1000000 := by
    unfold Wavy.PlayTimeFromByteCount
    rw [htr]
  rw [hple]
  unfold Wavy.ByteCountFromPlayTime Wavy.durationMilliseconds Wavy.goDiv
  rw [Int.mul_tdiv_cancel m (by norm_num)]
  have hkey : m * bps ≤ 1000 * b := by
    have h1 : (m : ℚ) ≤ (b : ℚ) / (bps : ℚ) * 1000 := Int.floor_le _
    have h2 : (b : ℚ) / (bps : ℚ) * 1000 = (1000 * b : ℚ) / (bps : ℚ) := by
      ring
    rw [h2] at h1
    have h3 : (m : ℚ) * (bps : ℚ) ≤ (1000 * b : ℚ) := by
      calc (m : ℚ) * (bps : ℚ) ≤ ((1000 * b : ℚ) / (bps : ℚ)) * (bps : ℚ) :=
            mul_le_mul_of_nonneg_right h1 (le_of_lt hbps')
        _ = (1000 * b : ℚ) := div_mul_cancel₀ _ (ne_of_gt hbps')
    exact_mod_cast h3
  have hmb : 0 ≤ m * bps := mul_nonneg hm0 (le_of_lt hbps)
  rw [Int.tdiv_eq_ediv hmb (by norm_num)]
  calc m * bps / 1000 ≤ 1000 * b / 1000 := Int.ediv_le_ediv (by norm_num) hkey
    _ = b := Int.mul_ediv_cancel_left b (by norm_num)

/-- C6 witness: the amended theorem at `BytesPerSecond = 176400` and
`t = 400ms` (the repository's own test vector, where the round trip is in
fact exact: 400ms ↦ 70560 bytes ↦ 400ms ↦ 70560 bytes). -/
theorem c6_roundtrip_amended_witness :
    (0 : Int) < 176400 ∧ (0 : Int) ≤ 400000000 ∧
    (Wavy.ByteCountFromPlayTime 176400
        (Wavy.PlayTimeFromByteCount 176400
          (Wavy.ByteCountFromPlayTime 176400 400000000)) ≤
      Wavy.ByteCountFromPlayTime 176400 400000000 ∧
    0 ≤ Wavy.ByteCountFromPlayTime 176400 400000000) :=
  ⟨by decide, by decide,
    c6_roundtrip_amended 176400 400000000 (by decide) (by decide)⟩

namespace Wavy

/-! ## Playback controller: `Sound` (src/wavy.go)

The embedded fragment covers the pure state and panic behaviour of
`SetVolume`, `Close`/`IsClosed`, `CopyInMemSound`,
`ClipInMemSoundPercent` and `TotalTime`.  The oto player is reduced to
its volume plus the error its `Close()` call would report; the open file
handle is reduced to presence plus the error its `Close()` would report.
A fresh player created by `Ctx.NewPlayer` is given a `none` close result
as a placeholder; no theorem depends on it.
-/

/-- Model of `SoundMode` (src/sound_enums.go). -/
inductive SoundMode where
  | streaming
  | memory
deriving DecidableEq

/-- Model of `SoundInfo` (src/wavy.go lines 81-87). -/
structure SoundInfo where
  type : SoundType
  mode : SoundMode
  size : Int
deriving DecidableEq

/-- The oto player handle: its volume, and the error result that its
`Close()` call reports when invoked. -/
structure Player where
  volume : ℚ
  closeErr : Option String
deriving DecidableEq

/-- The `Data io.ReadSeeker` field of `Sound`: a nil interface (after
close), a `*SoundBuffer` (in-memory sounds), or a streaming decoder. -/
inductive GoData where
  | nil
  | buf (sb : SoundBuffer)
  | streamDec
deriving DecidableEq

/-- Model of `Sound` (src/wavy.go lines 89-101 of the current snapshot): player,
optional open file handle (with the error its close would report),
data source and static info. -/
structure Sound where
  player : Player
  file : Option (Option String)
  data : GoData
  info : SoundInfo
deriving DecidableEq

/-- Model of `clamp01F64` (src/wavy.go lines 776-787). -/
def clamp01F64 (x : ℚ) : ℚ := if x < 0 then 0 else if 1 < x then 1 else x

/-- Model of `Sound.Volume`: returns `s.Player.Volume()`. -/
def Volume (s : Sound) : ℚ := s.player.volume

/-- Model of `Sound.SetVolume` (src/wavy.go lines 478-485): panics (`none`) iff
the volume is outside `[0, 1]`, otherwise sets the player volume. -/
def SetVolume (s : Sound) (newVol : ℚ) : Option Sound :=
  if newVol < 0 ∨ 1 < newVol then none
  else some { s with player := { s.player with volume := newVol } }

/-- Model of `Sound.IsClosed` (src/wavy.go lines 533-535): `s.Data == nil`. -/
def IsClosed (s : Sound) : Bool := s.data = .nil

/-- Result of `Sound.Close`: the returned error, the state of the sound
afterwards, and whether the player close and the file close were
actually invoked. -/
structure CloseResult where
  err : Option String
  s2 : Sound
  playerClosed : Bool
  fileClosed : Bool
deriving DecidableEq

/-- The `fdErr` computed by `Sound.Close`: `nil` when there is no file
descriptor, otherwise the file's close result. -/
def fdErrOf (s : Sound) : Option String :=
  match s.file with
  | none => none
  | some e => e

/-- Model of `Sound.Close` (src/wavy.go lines 539-566): a no-op returning `nil`
when already closed; otherwise closes the file (when present), nils the
`Data` field, closes the player, and combines the two error results —
both messages in one error when both fail (`closingFileErr: ...;
underlyingPlayerErr: ...`), the single error otherwise. -/
def Close (s : Sound) : CloseResult :=
  if IsClosed s then ⟨none, s, false, false⟩
  else
    let fdErr := fdErrOf s
    let s2 := { s with data := GoData.nil }
    let playerErr := s.player.closeErr
    let err : Option String :=
      match playerErr, fdErr with
      | none, none => none
      | some p, some f =>
          some ("closingFileErr: " ++ f ++ "; underlyingPlayerErr: " ++ p)
      | some p, none => some p
      | none, some f => some f
    ⟨err, s2, true, s.file.isSome⟩

/-- The Go type assertion `s.Data.(*SoundBuffer)`: panics (`none`) on a
nil interface or on any dynamic type other than `*SoundBuffer`. -/
def typeAssertSoundBuffer : GoData → Option SoundBuffer
  | .buf sb => some sb
  | _ => none

/-- The Go slice expression `l[start:end]` on a slice whose capacity
equals its length: panics (`none`) unless `0 ≤ start ≤ end ≤ len`.
(The capacity of the real backing array may exceed `len`, but every use
below has `end ≤ len` by clamping, where capacity is irrelevant.) -/
def goSlice (l : List Nat) (start endPos : Int) : Option (List Nat) :=
  if 0 ≤ start ∧ start ≤ endPos ∧ endPos ≤ (l.length : Int) then
    some ((l.take endPos.toNat).drop start.toNat)
  else none

/-- Model of `CopyInMemSound` (src/wavy.go lines 572-589): panics on a
non-memory sound, asserts `Data` to `*SoundBuffer` (a panic on a closed
sound), copies the buffer, and builds a new sound with a fresh player at
the origin's volume and the same `Info`. -/
def CopyInMemSound (s : Sound) : Option Sound :=
  if s.info.mode ≠ SoundMode.memory then none
  else
    match typeAssertSoundBuffer s.data with
    | none => none
    | some sb =>
        let sb2 := sbCopy sb
        some { player := ⟨Volume s, none⟩
               file := none
               data := .buf sb2
               info := s.info }

/-- Model of `ClipInMemSoundPercent` (src/wavy.go lines 593-617): like
`CopyInMemSound` but narrows the copied buffer to
`Data[start:end]` where `start`/`end` are the clamped fractions of the
data length truncated to `int64`. -/
def ClipInMemSoundPercent (s : Sound) (fromPercent toPercent : ℚ) :
    Option Sound :=
  if s.info.mode ≠ SoundMode.memory then none
  else
    let fp := clamp01F64 fromPercent
    let tp := clamp01F64 toPercent
    match typeAssertSoundBuffer s.data with
    | none => none
    | some sb =>
        let sb2 := sbCopy sb
        let start := ratTrunc ((sb2.data.length : ℚ) * fp)
        let endPos := ratTrunc ((sb2.data.length : ℚ) * tp)
        match goSlice sb2.data start endPos with
        | none => none
        | some newData =>
            some { player := ⟨Volume s, none⟩
                   file := none
                   data := .buf ⟨newData, sb2.pos⟩
                   info := s.info }

/-- Model of `Sound.TotalTime` (src/wavy.go lines 458-460):
`PlayTimeFromByteCount(s.Info.Size)`. -/
def TotalTime (bytesPerSecond : Int) (s : Sound) : Int :=
  PlayTimeFromByteCount bytesPerSecond s.info.size

/-- A concrete live in-memory sound over four bytes of PCM data. -/
def memSound4 : Sound :=
  { player := ⟨1, none⟩
    file := none
    data := .buf ⟨[0, 0, 0, 0], 0⟩
    info := ⟨.mp3, .memory, 4⟩ }

/-- A concrete live in-memory sound over a single byte of PCM data. -/
def memSound1 : Sound :=
  { player := ⟨1, none⟩
    file := none
    data := .buf ⟨[0], 0⟩
    info := ⟨.mp3, .memory, 1⟩ }

/-- Bounds: `clamp01F64` lands in `[0, 1]`. -/
theorem clamp01F64_mem (x : ℚ) : 0 ≤ clamp01F64 x ∧ clamp01F64 x ≤ 1 := by
  unfold clamp01F64
  split_ifs with h1 h2
  · norm_num
  · norm_num
  · exact ⟨le_of_not_lt h1, le_of_not_lt h2⟩

/-- Reduction: `ratTrunc` is the floor on nonnegative arguments. -/
theorem ratTrunc_eq_floor (q : ℚ) (h : 0 ≤ q) : ratTrunc q = ⌊q⌋ := by
  unfold ratTrunc
  rw [if_neg (not_lt.mpr h)]

end Wavy

namespace Wavy

/-- Evaluation of `ClipInMemSoundPercent` on a live memory sound: the
result is governed by the slice expression over the copied buffer. -/
theorem clip_eval (s : Sound) (sb : SoundBuffer) (fp tp : ℚ)
    (hmode : s.info.mode = .memory) (hdata : s.data = .buf sb) :
    ClipInMemSoundPercent s fp tp =
      (match goSlice sb.data
          (ratTrunc ((sb.data.length : ℚ) * clamp01F64 fp))
          (ratTrunc ((sb.data.length : ℚ) * clamp01F64 tp)) with
        | none => none
        | some newData =>
            some { player := ⟨Volume s, none⟩
                   file := none
                   data := .buf ⟨newData, 0⟩
                   info := s.info }) := by
  unfold ClipInMemSoundPercent
  rw [hmode, hdata]
  simp [typeAssertSoundBuffer, sbCopy]

/-- Evaluation of `CopyInMemSound` on a live memory sound. -/
theorem copy_eval (s : Sound) (sb : SoundBuffer)
    (hmode : s.info.mode = .memory) (hdata : s.data = .buf sb) :
    CopyInMemSound s =
      some { player := ⟨Volume s, none⟩
             file := none
             data := .buf ⟨sb.data, 0⟩
             info := s.info } := by
  unfold CopyInMemSound
  rw [hmode, hdata]
  simp [typeAssertSoundBuffer, sbCopy]

/-- The start index of a clip is nonnegative and its end index is at
most the data length (consequences of the clamping). -/
theorem clip_slice_cond (sb : SoundBuffer) (fp tp : ℚ) :
    0 ≤ ratTrunc ((sb.data.length : ℚ) * clamp01F64 fp) ∧
    ratTrunc ((sb.data.length : ℚ) * clamp01F64 tp) ≤
      (sb.data.length : Int) := by
  obtain ⟨hf0, _⟩ := clamp01F64_mem fp
  obtain ⟨ht0, ht1⟩ := clamp01F64_mem tp
  have hlen : (0 : ℚ) ≤ (sb.data.length : ℚ) := by positivity
  constructor
  · rw [ratTrunc_eq_floor _ (mul_nonneg hlen hf0)]
    exact Int.floor_nonneg.mpr (mul_nonneg hlen hf0)
  · rw [ratTrunc_eq_floor _ (mul_nonneg hlen ht0)]
    have : (sb.data.length : ℚ) * clamp01F64 tp ≤ (sb.data.length : ℚ) := by
      calc (sb.data.length : ℚ) * clamp01F64 tp ≤
            (sb.data.length : ℚ) * 1 := mul_le_mul_of_nonneg_left ht1 hlen
        _ = (sb.data.length : ℚ) := mul_one _
    calc ⌊(sb.data.length : ℚ) * clamp01F64 tp⌋ ≤
          ⌊((sb.data.length : Int) : ℚ)⌋ := Int.floor_le_floor (by exact_mod_cast this)
      _ = (sb.data.length : Int) := Int.floor_intCast _

/-- A clip of a live memory sound returns normally exactly when the
truncated start index is at most the truncated end index. -/
theorem clip_isSome_iff (s : Sound) (sb : SoundBuffer) (fp tp : ℚ)
    (hmode : s.info.mode = .memory) (hdata : s.data = .buf sb) :
    (ClipInMemSoundPercent s fp tp).isSome = true ↔
      ratTrunc ((sb.data.length : ℚ) * clamp01F64 fp) ≤
        ratTrunc ((sb.data.length : ℚ) * clamp01F64 tp) := by
  rw [clip_eval s sb fp tp hmode hdata]
  obtain ⟨ha, hb⟩ := clip_slice_cond sb fp tp
  unfold goSlice
  by_cases hcond : 0 ≤ ratTrunc ((sb.data.length : ℚ) * clamp01F64 fp) ∧
      ratTrunc ((sb.data.length : ℚ) * clamp01F64 fp) ≤
        ratTrunc ((sb.data.length : ℚ) * clamp01F64 tp) ∧
      ratTrunc ((sb.data.length : ℚ) * clamp01F64 tp) ≤ (sb.data.length : Int)
  · rw [if_pos hcond]
    simp [hcond.2.1]
  · rw [if_neg hcond]
    simp only [Option.isSome_none, Bool.false_eq_true, false_iff]
    intro hab
    exact hcond ⟨ha, hab, hb⟩

end Wavy

namespace Wavy

/-- Clip indices are monotone in the clamped fractions. -/
theorem clip_start_le_end (sb : SoundBuffer) (fp tp : ℚ)
    (hle : clamp01F64 fp ≤ clamp01F64 tp) :
    ratTrunc ((sb.data.length : ℚ) * clamp01F64 fp) ≤
      ratTrunc ((sb.data.length : ℚ) * clamp01F64 tp) := by
  obtain ⟨hf0, _⟩ := clamp01F64_mem fp
  obtain ⟨ht0, _⟩ := clamp01F64_mem tp
  have hlen : (0 : ℚ) ≤ (sb.data.length : ℚ) := by positivity
  rw [ratTrunc_eq_floor _ (mul_nonneg hlen hf0),
    ratTrunc_eq_floor _ (mul_nonneg hlen ht0)]
  exact Int.floor_le_floor (mul_le_mul_of_nonneg_left hle hlen)

end Wavy

/-- C7 counterexample: `ClipInMemSoundPercent` can abort even on a
memory-mode origin, refuting the "if and only if" — on a live in-memory
sound over 4 bytes, `ClipInMemSoundPercent(s, 1, 0)` computes the
narrowed view `Data[4:0]` and panics (`start > end`), although the
origin's mode is memory. -/
theorem c7_memory_clip_aborts_counterexample :
    Wavy.memSound4.info.mode = Wavy.SoundMode.memory ∧
    Wavy.ClipInMemSoundPercent Wavy.memSound4 1 0 = none := by
  refine ⟨rfl, ?_⟩
  rw [Wavy.clip_eval Wavy.memSound4 ⟨[0, 0, 0, 0], 0⟩ 1 0 rfl rfl]
  have hfp : Wavy.clamp01F64 (1 : ℚ) = 1 := by
    unfold Wavy.clamp01F64
    norm_num
  have htp : Wavy.clamp01F64 (0 : ℚ) = 0 := by
    unfold Wavy.clamp01F64
    norm_num
  rw [hfp, htp]
  have h1 : Wavy.ratTrunc
      (((⟨[0, 0, 0, 0], 0⟩ : Wavy.SoundBuffer).data.length : ℚ) * 1) = 4 := by
    rw [Wavy.ratTrunc_eq_floor _ (by norm_num)]
    norm_num
  have h2 : Wavy.ratTrunc
      (((⟨[0, 0, 0, 0], 0⟩ : Wavy.SoundBuffer).data.length : ℚ) * 0) = 0 := by
    rw [Wavy.ratTrunc_eq_floor _ (by norm_num)]
    norm_num
  rw [h1, h2]
  unfold Wavy.goSlice
  rw [if_neg (by norm_num)]

/-- C7 amended: `SetVolume(v)` aborts exactly when `v < 0` or `v > 1`;
`CopyInMemSound` and `ClipInMemSoundPercent` abort whenever the origin's
mode is not memory-mode; in the other direction, memory mode alone is
not sufficient: both also abort when `Data` is not a live `*SoundBuffer`
(e.g. a closed sound), and `ClipInMemSoundPercent` aborts when the
clamped `fromPercent` exceeds the clamped `toPercent` enough to make
`start > end` (see the counterexample).  For an in-range volume, and for
live memory-mode origins (with clamped `from ≤ to` for clips), the
operations complete without aborting. -/
theorem c7_abort_conditions_amended :
    (∀ (s : Wavy.Sound) (v : ℚ),
      Wavy.SetVolume s v = none ↔ (v < 0 ∨ 1 < v)) ∧
    (∀ s : Wavy.Sound, s.info.mode ≠ Wavy.SoundMode.memory →
      Wavy.CopyInMemSound s = none) ∧
    (∀ (s : Wavy.Sound) (fp tp : ℚ), s.info.mode ≠ Wavy.SoundMode.memory →
      Wavy.ClipInMemSoundPercent s fp tp = none) ∧
    (∀ (s : Wavy.Sound) (sb : Wavy.SoundBuffer),
      s.info.mode = Wavy.SoundMode.memory → s.data = .buf sb →
      (Wavy.CopyInMemSound s).isSome = true) ∧
    (∀ (s : Wavy.Sound) (sb : Wavy.SoundBuffer) (fp tp : ℚ),
      s.info.mode = Wavy.SoundMode.memory → s.data = .buf sb →
      Wavy.clamp01F64 fp ≤ Wavy.clamp01F64 tp →
      (Wavy.ClipInMemSoundPercent s fp tp).isSome = true) := by
  refine ⟨?_, ?_, ?_, ?_, ?_⟩
  · intro s v
    unfold Wavy.SetVolume
    by_cases h : v < 0 ∨ 1 < v
    · simp [h]
    · simp [h]
  · intro s h
    unfold Wavy.CopyInMemSound
    rw [if_pos h]
  · intro s fp tp h
    unfold Wavy.ClipInMemSoundPercent
    rw [if_pos h]
  · intro s sb hm hd
    rw [Wavy.copy_eval s sb hm hd]
    rfl
  · intro s sb fp tp hm hd hle
    rw [Wavy.clip_isSome_iff s sb fp tp hm hd]
    exact Wavy.clip_start_le_end sb fp tp hle

/-- C7 witness: the clip clause of the amended theorem at the live
4-byte memory sound with fractions 0 and 1 (clip of the whole range
succeeds). -/
theorem c7_abort_conditions_amended_witness :
    Wavy.memSound4.info.mode = Wavy.SoundMode.memory ∧
    Wavy.memSound4.data = .buf ⟨[0, 0, 0, 0], 0⟩ ∧
    Wavy.clamp01F64 0 ≤ Wavy.clamp01F64 1 ∧
    (Wavy.ClipInMemSoundPercent Wavy.memSound4 0 1).isSome = true := by
  have hle : Wavy.clamp01F64 (0 : ℚ) ≤ Wavy.clamp01F64 (1 : ℚ) := by
    unfold Wavy.clamp01F64
    norm_num
  exact ⟨rfl, rfl, hle,
    c7_abort_conditions_amended.2.2.2.2 Wavy.memSound4 ⟨[0, 0, 0, 0], 0⟩ 0 1
      rfl rfl hle⟩

/-- C9: a clip of a live memory-mode sound with clamped `from ≤ to`
carries the origin's `Info` unchanged — in particular `Info.Size` stays
the origin's full byte size, so `TotalTime()` of the clip equals
`TotalTime()` of the origin even though the clip's data view is
narrowed. -/
theorem c9_clip_preserves_info (bps : Int) (s : Wavy.Sound)
    (sb : Wavy.SoundBuffer) (fp tp : ℚ)
    (hmode : s.info.mode = Wavy.SoundMode.memory)
    (hdata : s.data = .buf sb)
    (hle : Wavy.clamp01F64 fp ≤ Wavy.clamp01F64 tp) :
    ∃ s2, Wavy.ClipInMemSoundPercent s fp tp = some s2 ∧
      s2.info = s.info ∧ s2.info.size = s.info.size ∧
      Wavy.TotalTime bps s2 = Wavy.TotalTime bps s := by
  rw [Wavy.clip_eval s sb fp tp hmode hdata]
  obtain ⟨ha, hb⟩ := Wavy.clip_slice_cond sb fp tp
  have hab := Wavy.clip_start_le_end sb fp tp hle
  unfold Wavy.goSlice
  rw [if_pos ⟨ha, hab, hb⟩]
  exact ⟨_, rfl, rfl, rfl, rfl⟩

/-- C9 witness: the theorem at `BytesPerSecond = 176400`, the live
4-byte memory sound, and the whole range (fractions 0 and 1). -/
theorem c9_clip_preserves_info_witness :
    Wavy.memSound4.info.mode = Wavy.SoundMode.memory ∧
    Wavy.memSound4.data = .buf ⟨[0, 0, 0, 0], 0⟩ ∧
    Wavy.clamp01F64 0 ≤ Wavy.clamp01F64 1 ∧
    (∃ s2, Wavy.ClipInMemSoundPercent Wavy.memSound4 0 1 = some s2 ∧
      s2.info = Wavy.memSound4.info ∧
      s2.info.size = Wavy.memSound4.info.size ∧
      Wavy.TotalTime 176400 s2 = Wavy.TotalTime 176400 Wavy.memSound4) := by
  have hle : Wavy.clamp01F64 (0 : ℚ) ≤ Wavy.clamp01F64 (1 : ℚ) := by
    unfold Wavy.clamp01F64
    norm_num
  exact ⟨rfl, rfl, hle,
    c9_clip_preserves_info 176400 Wavy.memSound4 ⟨[0, 0, 0, 0], 0⟩ 0 1
      rfl rfl hle⟩

/-- C10 counterexample: on a live one-byte memory sound,
`ClipInMemSoundPercent(s, 0.9, 0.1)` returns normally even though the
clamped `fromPercent = 0.9` exceeds the clamped `toPercent = 0.1` —
both truncated indices are 0, so `Data[0:0]` is legal — refuting
"returns normally only when the clamped fromPercent is at most the
clamped toPercent". -/
theorem c10_from_gt_to_returns_normally_counterexample :
    Wavy.clamp01F64 (1 / 10) < Wavy.clamp01F64 (9 / 10) ∧
    (Wavy.ClipInMemSoundPercent Wavy.memSound1 (9 / 10) (1 / 10)).isSome =
      true := by
  constructor
  · unfold Wavy.clamp01F64
    norm_num
  · rw [Wavy.clip_isSome_iff Wavy.memSound1 ⟨[0], 0⟩ (9 / 10) (1 / 10) rfl rfl]
    have hfp : Wavy.clamp01F64 ((9 : ℚ) / 10) = 9 / 10 := by
      unfold Wavy.clamp01F64
      norm_num
    have htp : Wavy.clamp01F64 ((1 : ℚ) / 10) = 1 / 10 := by
      unfold Wavy.clamp01F64
      norm_num
    rw [hfp, htp]
    rw [Wavy.ratTrunc_eq_floor _ (by norm_num),
      Wavy.ratTrunc_eq_floor _ (by norm_num)]
    norm_num

/-- C10 amended: a clip of a live memory-mode sound returns normally
exactly when the truncated start index `int64(len·from')` is at most the
truncated end index `int64(len·to')` (which can hold even with
`from' > to'`, by truncation — see the counterexample); and there is a
pair of fractions inside `[0,1]` with `from > to` on which the
operation panics via `Data[start:end]` with `start > end` (fractions 1
and 0 on a 4-byte sound give `Data[4:0]`). -/
theorem c10_clip_panic_condition_amended :
    (∀ (s : Wavy.Sound) (sb : Wavy.SoundBuffer) (fp tp : ℚ),
      s.info.mode = Wavy.SoundMode.memory → s.data = .buf sb →
      ((Wavy.ClipInMemSoundPercent s fp tp).isSome = true ↔
        Wavy.ratTrunc ((sb.data.length : ℚ) * Wavy.clamp01F64 fp) ≤
          Wavy.ratTrunc ((sb.data.length : ℚ) * Wavy.clamp01F64 tp))) ∧
    ((0 : ℚ) ≤ 0 ∧ (0 : ℚ) ≤ 1 ∧ (1 : ℚ) ≤ 1 ∧
      Wavy.clamp01F64 0 < Wavy.clamp01F64 1 ∧
      Wavy.ClipInMemSoundPercent Wavy.memSound4 1 0 = none) := by
  constructor
  · exact fun s sb fp tp hm hd => Wavy.clip_isSome_iff s sb fp tp hm hd
  · refine ⟨le_refl _, by norm_num, le_refl _, ?_, ?_⟩
    · unfold Wavy.clamp01F64
      norm_num
    · have hiff := Wavy.clip_isSome_iff Wavy.memSound4 ⟨[0, 0, 0, 0], 0⟩ 1 0
        rfl rfl
      cases hres : Wavy.ClipInMemSoundPercent Wavy.memSound4 1 0 with
      | none => rfl
      | some s2 =>
          rw [hres] at hiff
          have hle := hiff.mp rfl
          have hfp : Wavy.clamp01F64 (1 : ℚ) = 1 := by
            unfold Wavy.clamp01F64
            norm_num
          have htp : Wavy.clamp01F64 (0 : ℚ) = 0 := by
            unfold Wavy.clamp01F64
            norm_num
          rw [hfp, htp, Wavy.ratTrunc_eq_floor _ (by norm_num),
            Wavy.ratTrunc_eq_floor _ (by norm_num)] at hle
          norm_num at hle

/-- C10 witness: the iff clause of the amended theorem at the one-byte
sound and fractions 0.9/0.1. -/
theorem c10_clip_panic_condition_amended_witness :
    Wavy.memSound1.info.mode = Wavy.SoundMode.memory ∧
    Wavy.memSound1.data = .buf ⟨[0], 0⟩ ∧
    ((Wavy.ClipInMemSoundPercent Wavy.memSound1 (9 / 10) (1 / 10)).isSome =
        true ↔
      Wavy.ratTrunc ((((⟨[0], 0⟩ : Wavy.SoundBuffer)).data.length : ℚ) *
          Wavy.clamp01F64 (9 / 10)) ≤
        Wavy.ratTrunc ((((⟨[0], 0⟩ : Wavy.SoundBuffer)).data.length : ℚ) *
          Wavy.clamp01F64 (1 / 10))) :=
  ⟨rfl, rfl,
    c10_clip_panic_condition_amended.1 Wavy.memSound1 ⟨[0], 0⟩ (9 / 10)
      (1 / 10) rfl rfl⟩

namespace Wavy

/-- A concrete open streaming-style sound whose file close and player
close both fail. -/
def sndBothFail : Sound :=
  { player := ⟨1, some "playerBoom"⟩
    file := some (some "fileBoom")
    data := .buf ⟨[], 0⟩
    info := ⟨.mp3, .streaming, 0⟩ }

end Wavy

/-- C8: `Close()` is idempotent — on an already-closed sound (nil `Data`)
it returns `nil` without touching the file handle or the player, so a
second `Close()` produces no error and does not close the player again;
on a first call on an open sound, `Data` is set to nil, the player close
runs, and the returned error is: nil when both closes succeed, the
combined `closingFileErr: ...; underlyingPlayerErr: ...` message when
both fail, and the single failing error otherwise. -/
theorem c8_close_idempotent (s : Wavy.Sound) :
    (Wavy.IsClosed s = true → Wavy.Close s = ⟨none, s, false, false⟩) ∧
    ((Wavy.Close (Wavy.Close s).s2).err = none ∧
      (Wavy.Close (Wavy.Close s).s2).playerClosed = false ∧
      (Wavy.Close (Wavy.Close s).s2).fileClosed = false) ∧
    (Wavy.IsClosed s = false →
      ((Wavy.Close s).s2.data = Wavy.GoData.nil ∧
        (Wavy.Close s).playerClosed = true ∧
        (s.player.closeErr = none → Wavy.fdErrOf s = none →
          (Wavy.Close s).err = none) ∧
        (∀ p f, s.player.closeErr = some p → Wavy.fdErrOf s = some f →
          (Wavy.Close s).err =
            some ("closingFileErr: " ++ f ++ "; underlyingPlayerErr: " ++ p)) ∧
        (∀ p, s.player.closeErr = some p → Wavy.fdErrOf s = none →
          (Wavy.Close s).err = some p) ∧
        (∀ f, s.player.closeErr = none → Wavy.fdErrOf s = some f →
          (Wavy.Close s).err = some f))) := by
  by_cases hc : Wavy.IsClosed s = true
  · have hcl : Wavy.Close s = ⟨none, s, false, false⟩ := by
      unfold Wavy.Close
      rw [if_pos hc]
    refine ⟨fun _ => hcl, ?_, fun hf => by rw [hf] at hc; exact absurd hc (by simp)⟩
    rw [hcl]
    dsimp only
    rw [hcl]
    exact ⟨rfl, rfl, rfl⟩
  · have hs2 : (Wavy.Close s).s2 = { s with data := Wavy.GoData.nil } := by
      unfold Wavy.Close
      rw [if_neg hc]
    have hs2closed : Wavy.IsClosed { s with data := Wavy.GoData.nil } = true := by
      unfold Wavy.IsClosed
      simp
    have hcl2 : Wavy.Close { s with data := Wavy.GoData.nil } =
        ⟨none, { s with data := Wavy.GoData.nil }, false, false⟩ := by
      unfold Wavy.Close
      rw [if_pos hs2closed]
    refine ⟨fun ht => absurd ht hc, ?_, fun _ => ?_⟩
    · rw [hs2, hcl2]
      exact ⟨rfl, rfl, rfl⟩
    · refine ⟨by rw [hs2], ?_, ?_, ?_, ?_, ?_⟩
      · unfold Wavy.Close
        rw [if_neg hc]
      · intro hp hfd
        unfold Wavy.Close
        rw [if_neg hc]
        dsimp only
        rw [hp, hfd]
      · intro p f hp hfd
        unfold Wavy.Close
        rw [if_neg hc]
        dsimp only
        rw [hp, hfd]
      · intro p hp hfd
        unfold Wavy.Close
        rw [if_neg hc]
        dsimp only
        rw [hp, hfd]
      · intro f hp hfd
        unfold Wavy.Close
        rw [if_neg hc]
        dsimp only
        rw [hp, hfd]

/-- C8 witness: the theorem at a concrete open sound whose file close
and player close both fail, checking the combined error message and the
silent second close. -/
theorem c8_close_idempotent_witness :
    (Wavy.IsClosed Wavy.sndBothFail = true →
      Wavy.Close Wavy.sndBothFail = ⟨none, Wavy.sndBothFail, false, false⟩) ∧
    ((Wavy.Close (Wavy.Close Wavy.sndBothFail).s2).err = none ∧
      (Wavy.Close (Wavy.Close Wavy.sndBothFail).s2).playerClosed = false ∧
      (Wavy.Close (Wavy.Close Wavy.sndBothFail).s2).fileClosed = false) ∧
    (Wavy.IsClosed Wavy.sndBothFail = false →
      ((Wavy.Close Wavy.sndBothFail).s2.data = Wavy.GoData.nil ∧
        (Wavy.Close Wavy.sndBothFail).playerClosed = true ∧
        (Wavy.sndBothFail.player.closeErr = none →
          Wavy.fdErrOf Wavy.sndBothFail = none →
          (Wavy.Close Wavy.sndBothFail).err = none) ∧
        (∀ p f, Wavy.sndBothFail.player.closeErr = some p →
          Wavy.fdErrOf Wavy.sndBothFail = some f →
          (Wavy.Close Wavy.sndBothFail).err =
            some ("closingFileErr: " ++ f ++ "; underlyingPlayerErr: " ++ p)) ∧
        (∀ p, Wavy.sndBothFail.player.closeErr = some p →
          Wavy.fdErrOf Wavy.sndBothFail = none →
          (Wavy.Close Wavy.sndBothFail).err = some p) ∧
        (∀ f, Wavy.sndBothFail.player.closeErr = none →
          Wavy.fdErrOf Wavy.sndBothFail = some f →
          (Wavy.Close Wavy.sndBothFail).err = some f))) :=
  c8_close_idempotent Wavy.sndBothFail
